import Mathlib

/-!
Shallow embedding of `src/userValidator.js`, a small module of user-data
validation and transformation helpers, together with proofs of its
specification claims.

Modelling conventions:
* JavaScript runtime values are embedded as the inductive type `JSVal`.
  Numbers are modelled as exact rationals (`ℚ`); the special float values
  `NaN`/`Infinity` and binary rounding are outside the model, and every
  theorem that depends on arithmetic carries hypotheses keeping it inside
  the exact fragment.
* Strings are Lean `String`s (sequences of Unicode scalar values); the
  UTF-16 code-unit view of JavaScript strings is not modelled.
* Throwing functions are embedded with `Except String`, the error string
  being the thrown message.
* `createUser` reads the wall clock; the clock is passed explicitly as the
  `now` argument, so `new Date().toISOString()` becomes `now`.
-/

/-- Embedded JavaScript values: strings, (exact rational) numbers, booleans,
`null`, `undefined`, arrays and plain objects (ordered field lists). -/
inductive JSVal where
  | str (s : String)
  | num (q : ℚ)
  | bool (b : Bool)
  | null
  | undefined
  | arr (elems : List JSVal)
  | obj (fields : List (String × JSVal))

/-- Characters matched by the JavaScript regular-expression class `\s`
(whitespace): tab, line feed, vertical tab, form feed, carriage return,
space, and the Unicode space separators recognised by ECMAScript. -/
def jsWhitespace (c : Char) : Bool :=
  c == '\t' || c == '\n' || c.toNat == 0x0B || c.toNat == 0x0C ||
  c == '\r' || c == ' ' || c.toNat == 0xA0 || c.toNat == 0x1680 ||
  (0x2000 ≤ c.toNat && c.toNat ≤ 0x200A) || c.toNat == 0x2028 ||
  c.toNat == 0x2029 || c.toNat == 0x202F || c.toNat == 0x205F ||
  c.toNat == 0x3000 || c.toNat == 0xFEFF

/-- Characters matched by the class `[^\s@]` of the email pattern:
anything that is neither whitespace nor `@`. -/
def isEmailChar (c : Char) : Bool :=
  !(jsWhitespace c) && c != '@'

/-- All decompositions of a list into a front part and a back part,
used to give the regular-expression match its nondeterministic split. -/
def splits (cs : List Char) : List (List Char × List Char) :=
  (List.range (cs.length + 1)).map fun i => (cs.take i, cs.drop i)

/-- Whole-string match of the regular expression from the source,
anchored at both ends: one-or-more `[^\s@]`, a literal `@`, one-or-more
`[^\s@]`, a literal `.`, one-or-more `[^\s@]`. -/
def emailRegexTest (cs : List Char) : Bool :=
  (splits cs).any fun p =>
    !p.1.isEmpty && p.1.all isEmailChar &&
    match p.2 with
    | ch :: r2 =>
      ch == '@' &&
      ((splits r2).any fun q =>
        !q.1.isEmpty && q.1.all isEmailChar &&
        match q.2 with
        | d :: c => d == '.' && (!c.isEmpty && c.all isEmailChar)
        | [] => false)
    | [] => false

/-- Embeds `validateEmail`: `false` for non-strings, otherwise the
anchored regular-expression test from the source. -/
def validateEmail (v : JSVal) : Bool :=
  match v with
  | .str s => emailRegexTest s.data
  | _ => false

/-- Embeds `validatePassword`: `false` for non-strings and strings shorter
than 8; otherwise requires a `\d` match (an ASCII digit somewhere) and an
`[A-Z]` match (an ASCII uppercase letter somewhere). -/
def validatePassword (v : JSVal) : Bool :=
  match v with
  | .str s =>
    if s.length < 8 then false
    else
      let hasDigit := s.data.any fun c => '0' ≤ c && c ≤ '9'
      let hasUpperCase := s.data.any fun c => 'A' ≤ c && c ≤ 'Z'
      hasDigit && hasUpperCase
  | _ => false

/-- The host's `toUpperCase` applied to a single character, which may
expand it: the Unicode default upper-casing maps the eszett to the
two-character string "SS", while an ASCII letter maps to its single
uppercase form. The model is exact on ASCII characters and on the eszett
expansion (the inputs the theorems below exercise); the remaining Unicode
simple and special mappings act as the identity here and are outside the
model. -/
def jsUpperChar (c : Char) : List Char :=
  if c = 'ß' then ['S', 'S'] else [c.toUpper]

/-- Embeds `formatUserName`: throws "Name must be a non-empty string" for a
non-string or an empty string, else upper-cases the first character with
`jsUpperChar` (which can expand it, as the host's `toUpperCase` does) and
lower-cases the remaining characters one by one with `Char.toLower`
(exact on ASCII; non-ASCII lower-casings and the context-sensitive
final-sigma rule are outside the model). -/
def formatUserName (v : JSVal) : Except String String :=
  match v with
  | .str s =>
    match s.data with
    | [] => .error "Name must be a non-empty string"
    | c :: rest => .ok ⟨jsUpperChar c ++ rest.map Char.toLower⟩
  | _ => .error "Name must be a non-empty string"

/-- Property access `v.k` as used by the source on array elements: field
lookup on an object, `undefined` when the field is absent or the value is
not an object. (Property access on `null`/`undefined` throws in the host;
the theorems below only invoke this on elements with a numeric `age`.) -/
def getField (v : JSVal) (k : String) : JSVal :=
  match v with
  | .obj fields =>
    match fields.lookup k with
    | some w => w
    | none => .undefined
  | _ => .undefined

/-- The comparison `x >= m` of the source's filter callback, for a number
`m`: numeric comparison when `x` is a number, `false` when `x` is
`undefined` (a comparison against NaN). ToNumber coercion of booleans,
strings and `null` is outside the model; the theorems below restrict to
elements whose `age` is numeric. -/
def jsGeNum (x : JSVal) (m : ℚ) : Bool :=
  match x with
  | .num a => decide (m ≤ a)
  | _ => false

/-- Embeds `filterUsersByAge`: checks `Array.isArray(users)` first, then
`typeof minAge === 'number' && minAge >= 0`, then keeps, in order, the
elements whose `age` field satisfies `user.age >= minAge`. -/
def filterUsersByAge (users minAge : JSVal) : Except String (List JSVal) :=
  match users with
  | .arr us =>
    match minAge with
    | .num m =>
      if m < 0 then .error "MinAge must be a positive number"
      else .ok (us.filter fun u => jsGeNum (getField u "age") m)
    | _ => .error "MinAge must be a positive number"
  | _ => .error "Users must be an array"

/-- The destructured input of `createUser`: the `email`, `password`, `name`
and `age` fields of the argument object (each possibly of any type). -/
structure UserData where
  email : JSVal
  password : JSVal
  name : JSVal
  age : JSVal

/-- The record returned by `createUser` on success. -/
structure CreatedUser where
  email : JSVal
  name : String
  age : JSVal
  createdAt : String

/-- The age guard of `createUser`: `typeof age === 'number' && age >= 0 &&
age <= 150` (the source tests the negation and throws). -/
def ageValid (v : JSVal) : Bool :=
  match v with
  | .num a => decide (0 ≤ a) && decide (a ≤ 150)
  | _ => false

/-- Embeds `createUser`: validates email, then password, then age, in that
order, each failure throwing its own message; then builds the result
record, whose `name` is produced by `formatUserName` (whose own error
propagates unchanged) and whose `createdAt` is the clock reading `now`
(modelling `new Date().toISOString()`). -/
def createUser (d : UserData) (now : String) : Except String CreatedUser :=
  if !validateEmail d.email then .error "Invalid email"
  else if !validatePassword d.password then .error "Invalid password"
  else if !ageValid d.age then .error "Invalid age"
  else (formatUserName d.name).map fun n =>
    { email := d.email, name := n, age := d.age, createdAt := now }

/-- The numeric value of an element's `age` field, used to embed the
source's `reduce((sum, user) => sum + user.age, 0)`: exact when the field
is a number, a placeholder `0` otherwise (the host would produce NaN
there; theorems about the sum carry a hypothesis that every element has a
numeric `age`). -/
def ageNum (u : JSVal) : ℚ :=
  match getField u "age" with
  | .num a => a
  | _ => 0

/-- The total of the `age` fields of a list of elements. -/
def sumAges (us : List JSVal) : ℚ :=
  (us.map ageNum).sum

/-- Embeds `Math.round` on exact rationals: the nearest integer, a tie
going toward positive infinity, i.e. `⌊q + 1/2⌋`. -/
def jsRound (q : ℚ) : ℤ :=
  ⌊q + 1/2⌋

/-- Modelled from the spec: round-half-away-from-zero rounding to the
nearest integer, where a tie goes to the value of greater magnitude.
Stated for comparison with `jsRound`, the rounding the source performs. -/
def roundHalfAwayFromZero (q : ℚ) : ℤ :=
  if 0 ≤ q then ⌊q + 1/2⌋ else ⌈q - 1/2⌉

/-- Embeds `calculateAverageAge`: throws "Users must be a non-empty array"
unless the input is a non-empty array, else sums the `age` fields, divides
by the length, and rounds to two decimals via
`Math.round(x * 100) / 100`. -/
def calculateAverageAge (users : JSVal) : Except String ℚ :=
  match users with
  | .arr us =>
    if us.isEmpty then .error "Users must be a non-empty array"
    else .ok ((jsRound (sumAges us / us.length * 100) : ℚ) / 100)
  | _ => .error "Users must be a non-empty array"

/-- An element of the shape the example user lists use: an object whose
`age` field holds the number `a`. -/
def ageObj (a : ℚ) : JSVal :=
  .obj [("age", .num a)]

/-- The four-user example list of the test suite. -/
def exampleUsers : List JSVal :=
  [.obj [("name", .str "Alice"), ("age", .num 25)],
   .obj [("name", .str "Bob"), ("age", .num 17)],
   .obj [("name", .str "Charlie"), ("age", .num 30)],
   .obj [("name", .str "David"), ("age", .num 16)]]

theorem char_ofNat_sub32_toNat (n : Nat) (h1 : 97 ≤ n) (h2 : n ≤ 122) :
    (Char.ofNat (n - 32)).toNat = n - 32 := by
  have hv : (n - 32).isValidChar := Or.inl (by omega)
  simp [Char.ofNat, hv, Char.ofNatAux, Char.toNat, UInt32.toNat, UInt32.ofNatCore]

theorem char_ofNat_add32_toNat (n : Nat) (h1 : 65 ≤ n) (h2 : n ≤ 90) :
    (Char.ofNat (n + 32)).toNat = n + 32 := by
  have hv : (n + 32).isValidChar := Or.inl (by omega)
  simp [Char.ofNat, hv, Char.ofNatAux, Char.toNat, UInt32.toNat, UInt32.ofNatCore]

theorem toUpper_eq (c : Char) :
    c.toUpper = if c.toNat ≥ 97 ∧ c.toNat ≤ 122 then Char.ofNat (c.toNat - 32) else c := rfl

theorem toLower_eq (c : Char) :
    c.toLower = if c.toNat ≥ 65 ∧ c.toNat ≤ 90 then Char.ofNat (c.toNat + 32) else c := rfl

theorem toUpper_toUpper (c : Char) : c.toUpper.toUpper = c.toUpper := by
  by_cases h : c.toNat ≥ 97 ∧ c.toNat ≤ 122
  · rw [toUpper_eq c, if_pos h, toUpper_eq, char_ofNat_sub32_toNat c.toNat h.1 h.2,
      if_neg (by omega)]
  · rw [toUpper_eq c, if_neg h, toUpper_eq c, if_neg h]

theorem toLower_toLower (c : Char) : c.toLower.toLower = c.toLower := by
  by_cases h : c.toNat ≥ 65 ∧ c.toNat ≤ 90
  · rw [toLower_eq c, if_pos h, toLower_eq, char_ofNat_add32_toNat c.toNat h.1 h.2,
      if_neg (by omega)]
  · rw [toLower_eq c, if_neg h, toLower_eq c, if_neg h]

theorem mem_splits_iff (cs : List Char) (p : List Char × List Char) :
    p ∈ splits cs ↔ cs = p.1 ++ p.2 := by
  constructor
  · intro h
    simp only [splits, List.mem_map, List.mem_range] at h
    obtain ⟨i, _, hi⟩ := h
    rw [← hi]
    exact (List.take_append_drop i cs).symm
  · intro h
    simp only [splits, List.mem_map, List.mem_range]
    refine ⟨p.1.length, by simp [h]; omega, ?_⟩
    obtain ⟨a, b⟩ := p
    simp only at h ⊢
    subst h
    rw [List.take_left, List.drop_left]

theorem emailRegexTest_iff (cs : List Char) :
    emailRegexTest cs = true ↔
      ∃ a b c : List Char, a ≠ [] ∧ b ≠ [] ∧ c ≠ [] ∧
        a.all isEmailChar ∧ b.all isEmailChar ∧ c.all isEmailChar ∧
        cs = a ++ '@' :: (b ++ '.' :: c) := by
  unfold emailRegexTest
  rw [List.any_eq_true]
  constructor
  · rintro ⟨⟨a, r1⟩, hmem, hcond⟩
    rw [mem_splits_iff] at hmem
    cases r1 with
    | nil => simp at hcond
    | cons ch r2 =>
      simp only [Bool.and_eq_true, Bool.not_eq_eq_eq_not, Bool.not_true,
        List.isEmpty_eq_false, beq_iff_eq, List.any_eq_true] at hcond
      obtain ⟨⟨ha, hae⟩, hch, ⟨b, r3⟩, hmem2, hcond2⟩ := hcond
      rw [mem_splits_iff] at hmem2
      cases r3 with
      | nil => simp at hcond2
      | cons d c =>
        simp only [Bool.and_eq_true, Bool.not_eq_eq_eq_not, Bool.not_true,
          List.isEmpty_eq_false, beq_iff_eq] at hcond2
        obtain ⟨⟨hb, hbe⟩, hd, hc, hce⟩ := hcond2
        subst hch hd
        exact ⟨a, b, c, ha, hb, hc, hae, hbe, hce, by simp [hmem, hmem2]⟩
  · rintro ⟨a, b, c, ha, hb, hc, hae, hbe, hce, rfl⟩
    refine ⟨(a, '@' :: (b ++ '.' :: c)), (mem_splits_iff _ _).mpr rfl, ?_⟩
    have hinner : ((splits (b ++ '.' :: c)).any fun q =>
        !q.1.isEmpty && q.1.all isEmailChar &&
        match q.2 with
        | d :: c2 => d == '.' && (!c2.isEmpty && c2.all isEmailChar)
        | [] => false) = true := by
      rw [List.any_eq_true]
      refine ⟨(b, '.' :: c), (mem_splits_iff _ _).mpr rfl, ?_⟩
      simp [hb, hbe, hc, hce]
    simp [ha, hae, hinner]

theorem map_toLower_idem (l : List Char) :
    (l.map Char.toLower).map Char.toLower = l.map Char.toLower := by
  induction l with
  | nil => rfl
  | cons c t ih => simp only [List.map_cons, toLower_toLower, ih]

theorem ageValid_iff (v : JSVal) :
    ageValid v = true ↔ ∃ a : ℚ, v = .num a ∧ 0 ≤ a ∧ a ≤ 150 := by
  cases v <;> simp [ageValid]

theorem formatUserName_error_msg (v : JSVal) (e : String)
    (h : formatUserName v = .error e) : e = "Name must be a non-empty string" := by
  rcases v with s | q | b | _ | _ | l | f
  case str =>
    rcases hs : s.data with _ | ⟨c, rest⟩
    · simp [formatUserName, hs] at h
      exact h.symm
    · simp [formatUserName, hs] at h
  all_goals simp [formatUserName] at h
  all_goals exact h.symm

/-- C3: `validatePassword` never throws; it returns `true` exactly for the
strings of length at least 8 that contain an ASCII digit and an ASCII
uppercase letter, and the spec's five examples evaluate as stated. -/
theorem validatePassword_characterization :
    (∀ v, validatePassword v = true ↔
      ∃ s, v = .str s ∧ 8 ≤ s.length ∧
        (∃ c ∈ s.data, '0' ≤ c ∧ c ≤ '9') ∧ (∃ c ∈ s.data, 'A' ≤ c ∧ c ≤ 'Z')) ∧
    validatePassword (.str "Password1") = true ∧
    validatePassword (.str "Pass1") = false ∧
    validatePassword (.str "password123") = false ∧
    validatePassword (.str "PASSWORD") = false ∧
    validatePassword (.num 12345678) = false := by
  refine ⟨fun v => ?_, by decide, by decide, by decide, by decide, by decide⟩
  cases v <;> simp [validatePassword]

/-- C4: `validateEmail` never throws; it returns `false` on every non-string
and, on a string, returns `true` exactly when the whole character sequence
splits as one-or-more non-whitespace-non-at characters, a literal at sign,
one-or-more such characters, a literal dot, and one-or-more such
characters; the spec's three examples evaluate as stated. -/
theorem validateEmail_characterization :
    (∀ q, validateEmail (.num q) = false) ∧
    (∀ b, validateEmail (.bool b) = false) ∧
    validateEmail .null = false ∧
    validateEmail .undefined = false ∧
    (∀ l, validateEmail (.arr l) = false) ∧
    (∀ f, validateEmail (.obj f) = false) ∧
    (∀ s : String, validateEmail (.str s) = true ↔
      ∃ a b c : List Char, a ≠ [] ∧ b ≠ [] ∧ c ≠ [] ∧
        a.all isEmailChar ∧ b.all isEmailChar ∧ c.all isEmailChar ∧
        s.data = a ++ '@' :: (b ++ '.' :: c)) ∧
    validateEmail (.str "test@example.com") = true ∧
    validateEmail (.str "testexample.com") = false ∧
    validateEmail (.str "test@") = false :=
  ⟨fun _ => rfl, fun _ => rfl, rfl, rfl, fun _ => rfl, fun _ => rfl,
   fun s => emailRegexTest_iff s.data, by decide, by decide, by decide⟩

/-- C9: `formatUserName` throws "Name must be a non-empty string" exactly on
inputs that are not non-empty strings; on a non-empty string it returns the
first character upper-cased followed by the remaining characters
lower-cased, and in particular maps "jOHN" to "John" and "j" to "J". -/
theorem formatUserName_characterization :
    (∀ v, formatUserName v = .error "Name must be a non-empty string" ↔
      ¬∃ s, v = .str s ∧ s ≠ "") ∧
    (∀ (c : Char) (rest : List Char),
      formatUserName (.str ⟨c :: rest⟩) = .ok ⟨jsUpperChar c ++ rest.map Char.toLower⟩) ∧
    formatUserName (.str "jOHN") = .ok "John" ∧
    formatUserName (.str "j") = .ok "J" ∧
    formatUserName (.str "") = .error "Name must be a non-empty string" := by
  refine ⟨fun v => ?_, fun c rest => rfl, rfl, rfl, rfl⟩
  cases v with
  | str s =>
    obtain ⟨cs⟩ := s
    cases cs with
    | nil => simp [formatUserName]
    | cons c rest =>
      simp only [formatUserName]
      constructor
      · intro h
        simp at h
      · intro h
        exact absurd ⟨⟨c :: rest⟩, rfl, by simp [String.ext_iff]⟩ h
  | num q => simp [formatUserName]
  | bool b => simp [formatUserName]
  | null => simp [formatUserName]
  | undefined => simp [formatUserName]
  | arr l => simp [formatUserName]
  | obj f => simp [formatUserName]

/-- C10 counterexample: the eszett is a non-empty string on which the
formatting is not idempotent, because the host's upper-casing expands the
single character to "SS": `formatUserName` maps "ß" to "SS", but maps
"SS" to "Ss", not back to "SS". -/
theorem formatUserName_not_idempotent :
    ("ß" : String) ≠ "" ∧
    formatUserName (.str "ß") = .ok "SS" ∧
    formatUserName (.str "SS") = .ok "Ss" ∧
    ¬∃ t, formatUserName (.str "ß") = .ok t ∧ t ≠ "" ∧
      formatUserName (.str t) = .ok t := by
  refine ⟨by decide, rfl, rfl, ?_⟩
  rintro ⟨t, h1, -, h3⟩
  have ht : (Except.ok "SS" : Except String String) = .ok t :=
    (show formatUserName (.str "ß") = .ok "SS" from rfl).symm.trans h1
  injection ht with ht
  subst ht
  have hss : (Except.ok "Ss" : Except String String) = .ok "SS" :=
    (show formatUserName (.str "SS") = .ok "Ss" from rfl).symm.trans h3
  injection hss with hss
  exact absurd hss (by decide)

/-- C10 (amended): on every non-empty string of ASCII characters
`formatUserName` succeeds with a non-empty string, and applying it again
returns that same string, so the formatting is idempotent on ASCII names;
on general Unicode strings idempotence can fail, since the host's
upper-casing may expand a character (eszett to "SS"). -/
theorem formatUserName_idempotent_on_ascii (s : String) (h : s ≠ "")
    (hascii : ∀ c ∈ s.data, c.toNat ≤ 127) :
    ∃ t, formatUserName (.str s) = .ok t ∧ t ≠ "" ∧
      formatUserName (.str t) = .ok t := by
  obtain ⟨cs⟩ := s
  cases cs with
  | nil => exact absurd rfl h
  | cons c rest =>
    have hca : c.toNat ≤ 127 := hascii c (by simp)
    have hc : c ≠ 'ß' := by
      intro hcontra
      subst hcontra
      exact absurd hca (by decide)
    have hup : c.toUpper.toNat ≤ 127 := by
      rw [toUpper_eq]
      by_cases hl : c.toNat ≥ 97 ∧ c.toNat ≤ 122
      · rw [if_pos hl, char_ofNat_sub32_toNat c.toNat hl.1 hl.2]
        omega
      · rw [if_neg hl]
        exact hca
    have hcu : c.toUpper ≠ 'ß' := by
      intro hcontra
      rw [hcontra] at hup
      exact absurd hup (by decide)
    refine ⟨⟨c.toUpper :: rest.map Char.toLower⟩, ?_, by simp [String.ext_iff], ?_⟩
    · show Except.ok (⟨jsUpperChar c ++ rest.map Char.toLower⟩ : String) = _
      rw [show jsUpperChar c = [c.toUpper] from if_neg hc]
      rfl
    · show Except.ok
        (⟨jsUpperChar c.toUpper ++ (rest.map Char.toLower).map Char.toLower⟩ : String) = _
      rw [show jsUpperChar c.toUpper = [c.toUpper.toUpper] from if_neg hcu,
        toUpper_toUpper, map_toLower_idem]
      rfl

/-- C10 witness: the amended idempotence theorem applied to the concrete
ASCII name "john". -/
theorem formatUserName_idempotent_on_ascii_witness :
    ∃ t, formatUserName (.str "john") = .ok t ∧ t ≠ "" ∧
      formatUserName (.str t) = .ok t :=
  formatUserName_idempotent_on_ascii "john" (by decide) (by decide)

/-- C6: for a non-negative numeric `minAge`, `filterUsersByAge` succeeds and
returns the sublist, in original order, of exactly the elements whose `age`
field passes the `>=` comparison against `minAge`; on the example four-user
list it keeps all four elements at `minAge` 0, none at 100, and the age-25
and age-30 elements (in that order) at 18. The input list is not mutated:
the model is purely functional and the result is a fresh sublist. -/
theorem filterUsersByAge_filters (us : List JSVal) (m : ℚ) (hm : 0 ≤ m) :
    (filterUsersByAge (.arr us) (.num m) =
      .ok (us.filter fun u => jsGeNum (getField u "age") m)) ∧
    (us.filter fun u => jsGeNum (getField u "age") m).Sublist us ∧
    (∀ u ∈ us, (u ∈ us.filter (fun u => jsGeNum (getField u "age") m) ↔
      jsGeNum (getField u "age") m = true)) ∧
    filterUsersByAge (.arr exampleUsers) (.num 0) = .ok exampleUsers ∧
    filterUsersByAge (.arr exampleUsers) (.num 100) = .ok [] ∧
    filterUsersByAge (.arr exampleUsers) (.num 18) =
      .ok [.obj [("name", .str "Alice"), ("age", .num 25)],
           .obj [("name", .str "Charlie"), ("age", .num 30)]] := by
  refine ⟨?_, List.filter_sublist us, fun u hu => ?_, ?_, ?_, ?_⟩
  · simp [filterUsersByAge, not_lt.mpr hm]
  · simp [List.mem_filter, hu]
  · rfl
  · rfl
  · rfl

/-- C6 witness: the filtering theorem applied to the example list with
`minAge` 0. -/
theorem filterUsersByAge_filters_witness :
    filterUsersByAge (.arr exampleUsers) (.num 0) =
      .ok (exampleUsers.filter fun u => jsGeNum (getField u "age") 0) :=
  (filterUsersByAge_filters exampleUsers 0 (by norm_num)).1

/-- C7: for an array input, `filterUsersByAge` throws "MinAge must be a
positive number" exactly when `minAge` is not a number that is at least
zero; zero itself is accepted. -/
theorem filterUsersByAge_minAge_error :
    ∀ (us : List JSVal) (minAge : JSVal),
      filterUsersByAge (.arr us) minAge = .error "MinAge must be a positive number" ↔
        ¬∃ m : ℚ, minAge = .num m ∧ 0 ≤ m := by
  intro us minAge
  cases minAge with
  | num m =>
    by_cases h : m < 0
    · refine iff_of_true (by simp [filterUsersByAge, h]) ?_
      rintro ⟨m', hm', h0⟩
      injection hm' with hh
      subst hh
      exact absurd h0 (not_le.mpr h)
    · exact iff_of_false (by simp [filterUsersByAge, h])
        (not_not_intro ⟨m, rfl, not_lt.mp h⟩)
  | str s => simp [filterUsersByAge]
  | bool b => simp [filterUsersByAge]
  | null => simp [filterUsersByAge]
  | undefined => simp [filterUsersByAge]
  | arr l => simp [filterUsersByAge]
  | obj f => simp [filterUsersByAge]

/-- C8: once the email and password checks have passed, `createUser` throws
"Invalid age" exactly when the `age` field is not a number in the inclusive
range 0 to 150; both boundary ages 0 and 150 pass the age guard. -/
theorem createUser_age_error :
    (∀ (d : UserData) (now : String),
      validateEmail d.email = true → validatePassword d.password = true →
      (createUser d now = .error "Invalid age" ↔
        ¬∃ a : ℚ, d.age = .num a ∧ 0 ≤ a ∧ a ≤ 150)) ∧
    ageValid (.num 0) = true ∧ ageValid (.num 150) = true := by
  refine ⟨fun d now hemail hpw => ?_, by norm_num [ageValid], by norm_num [ageValid]⟩
  rw [← ageValid_iff]
  by_cases hage : ageValid d.age = true
  · refine iff_of_false ?_ (by simp [hage])
    unfold createUser
    rw [hemail, hpw, hage]
    cases hname : formatUserName d.name with
    | ok n => simp [hname, Except.map]
    | error e =>
      have he := formatUserName_error_msg _ _ hname
      simp [hname, Except.map, he]
  · rw [Bool.not_eq_true] at hage
    refine iff_of_true ?_ (by simp [hage])
    unfold createUser
    rw [hemail, hpw, hage]
    rfl

/-- C8 witness: the age-error theorem applied to the spec's example input
with age 200, which throws "Invalid age". -/
theorem createUser_age_error_witness :
    createUser ⟨.str "test@example.com", .str "Password123", .str "john", .num 200⟩
      "2024-01-01T00:00:00.000Z" = .error "Invalid age" := by
  refine (createUser_age_error.1
    ⟨.str "test@example.com", .str "Password123", .str "john", .num 200⟩
    "2024-01-01T00:00:00.000Z" (by decide) (by decide)).mpr ?_
  rintro ⟨a, ha, h0, h150⟩
  injection ha with ha
  rw [← ha] at h150
  norm_num at h150

/-- C1: on an input whose email and password validate, whose age is a
number between 0 and 150, and whose name is a non-empty string,
`createUser` succeeds and returns the record with the email verbatim, the
name produced by `formatUserName`, the age verbatim, and the clock reading
taken at construction as `createdAt`. -/
theorem createUser_success (d : UserData) (now : String) (a : ℚ) (nm : String)
    (hemail : validateEmail d.email = true)
    (hpw : validatePassword d.password = true)
    (hage : d.age = .num a) (h0 : 0 ≤ a) (h150 : a ≤ 150)
    (hname : d.name = .str nm) (hnm : nm ≠ "") :
    ∃ n : String, formatUserName d.name = .ok n ∧
      createUser d now = .ok ⟨d.email, n, d.age, now⟩ := by
  have hav : ageValid d.age = true := (ageValid_iff d.age).mpr ⟨a, hage, h0, h150⟩
  obtain ⟨cs⟩ := nm
  cases cs with
  | nil => exact absurd rfl hnm
  | cons c rest =>
    refine ⟨⟨jsUpperChar c ++ rest.map Char.toLower⟩, by rw [hname]; rfl, ?_⟩
    unfold createUser
    rw [hemail, hpw, hav, hname]
    rfl

/-- C1 witness: the success theorem applied to the spec's example input,
producing the record with name "John". -/
theorem createUser_success_witness :
    ∃ n : String, formatUserName (.str "john") = .ok n ∧
      createUser ⟨.str "test@example.com", .str "Password123", .str "john", .num 25⟩
        "2024-01-01T00:00:00.000Z" =
        .ok ⟨.str "test@example.com", n, .num 25, "2024-01-01T00:00:00.000Z"⟩ :=
  createUser_success
    ⟨.str "test@example.com", .str "Password123", .str "john", .num 25⟩
    "2024-01-01T00:00:00.000Z" 25 "john" (by decide) (by decide) rfl
    (by norm_num) (by norm_num) rfl (by decide)

/-- C2: `createUser` validates email, then password, then age, in that
order, short-circuiting at the first failure with the corresponding
message, and only after all three checks pass does `formatUserName` run,
its own error propagating to the caller unchanged. -/
theorem createUser_validation_order (d : UserData) (now : String) :
    (validateEmail d.email = false → createUser d now = .error "Invalid email") ∧
    (validateEmail d.email = true → validatePassword d.password = false →
      createUser d now = .error "Invalid password") ∧
    (validateEmail d.email = true → validatePassword d.password = true →
      ageValid d.age = false → createUser d now = .error "Invalid age") ∧
    (validateEmail d.email = true → validatePassword d.password = true →
      ageValid d.age = true → ∀ e, formatUserName d.name = .error e →
      createUser d now = .error e) := by
  refine ⟨fun h1 => ?_, fun h1 h2 => ?_, fun h1 h2 h3 => ?_, fun h1 h2 h3 e h4 => ?_⟩
  · simp [createUser, h1]
  · simp [createUser, h1, h2]
  · simp [createUser, h1, h2, h3]
  · simp [createUser, h1, h2, h3, h4, Except.map]

/-- C2 witness: each of the four ordered failure modes observed on a
concrete input: a bad email, then a bad password, then a bad age, then an
empty name whose `formatUserName` error surfaces unchanged. -/
theorem createUser_validation_order_witness :
    createUser ⟨.str "bad", .str "Password123", .str "john", .num 25⟩ "t" =
      .error "Invalid email" ∧
    createUser ⟨.str "test@example.com", .str "weak", .str "john", .num 25⟩ "t" =
      .error "Invalid password" ∧
    createUser ⟨.str "test@example.com", .str "Password123", .str "john", .num 200⟩ "t" =
      .error "Invalid age" ∧
    createUser ⟨.str "test@example.com", .str "Password123", .str "", .num 25⟩ "t" =
      .error "Name must be a non-empty string" :=
  ⟨(createUser_validation_order _ _).1 (by decide),
   (createUser_validation_order _ _).2.1 (by decide) (by decide),
   (createUser_validation_order _ _).2.2.1 (by decide) (by decide) (by norm_num [ageValid]),
   (createUser_validation_order _ _).2.2.2 (by decide) (by decide)
     (by norm_num [ageValid]) "Name must be a non-empty string" rfl⟩

theorem ageNum_ageObj (a : ℚ) : ageNum (ageObj a) = a := rfl

theorem sumAges_map_ageObj (ages : List ℚ) : sumAges (ages.map ageObj) = ages.sum := by
  induction ages with
  | nil => rfl
  | cons a t ih =>
    simp only [sumAges, List.map_cons, List.sum_cons] at ih ⊢
    rw [ageNum_ageObj, ih]

/-- C5 counterexample: on eight users whose ages total -1 the average is
-1/8, so scaling by 100 gives -12.5; the code's `Math.round` (ties toward
positive infinity) yields -12 and the function returns -0.12, while the
claimed round-half-away-from-zero rule yields -13, i.e. -0.13, a different
value. -/
theorem calculateAverageAge_not_half_away_from_zero :
    calculateAverageAge (.arr ([-1, 0, 0, 0, 0, 0, 0, 0].map ageObj)) = .ok (-3/25) ∧
    (roundHalfAwayFromZero (([-1, 0, 0, 0, 0, 0, 0, 0] : List ℚ).sum /
      ([-1, 0, 0, 0, 0, 0, 0, 0] : List ℚ).length * 100) : ℚ) / 100 = -13/100 ∧
    ((-3 : ℚ)/25) ≠ -13/100 := by
  refine ⟨?_, ?_, by norm_num⟩
  · norm_num [calculateAverageAge, sumAges, ageNum, ageObj, getField, List.lookup, jsRound]
  · norm_num [roundHalfAwayFromZero]
    rw [show ((-13 : ℚ)) = ((-13 : ℤ) : ℚ) by norm_num, Int.ceil_intCast]
    norm_num

/-- C5 (amended): `calculateAverageAge` throws "Users must be a non-empty
array" exactly when its input is not a non-empty array; on a non-empty
list of users with numeric ages it returns the sum of the ages divided by
the count, rounded to two decimal places by multiplying by 100, rounding
to the nearest integer with ties toward positive infinity (the behavior of
`Math.round`), and dividing by 100; that rounding agrees with
round-half-away-from-zero on every non-negative value (so on every
non-negative average), and ages 20, 30, 40 give exactly 30. -/
theorem calculateAverageAge_rounds_half_up :
    (∀ v, calculateAverageAge v = .error "Users must be a non-empty array" ↔
      ¬∃ us, v = JSVal.arr us ∧ us ≠ []) ∧
    (∀ ages : List ℚ, ages ≠ [] →
      calculateAverageAge (.arr (ages.map ageObj)) =
        .ok ((jsRound (ages.sum / ages.length * 100) : ℚ) / 100)) ∧
    (∀ q : ℚ, 0 ≤ q → jsRound q = roundHalfAwayFromZero q) ∧
    calculateAverageAge (.arr ([20, 30, 40].map ageObj)) = .ok 30 := by
  refine ⟨fun v => ?_, fun ages h => ?_, fun q hq => ?_, ?_⟩
  · cases v with
    | arr us => rcases us with _ | ⟨u, rest⟩ <;> simp [calculateAverageAge]
    | str s => simp [calculateAverageAge]
    | num q => simp [calculateAverageAge]
    | bool b => simp [calculateAverageAge]
    | null => simp [calculateAverageAge]
    | undefined => simp [calculateAverageAge]
    | obj f => simp [calculateAverageAge]
  · have hne : (ages.map ageObj).isEmpty = false := by
      simp [List.isEmpty_eq_false, h]
    simp [calculateAverageAge, hne, sumAges_map_ageObj]
  · simp [jsRound, roundHalfAwayFromZero, hq]
  · norm_num [calculateAverageAge, sumAges, ageNum, ageObj, getField, List.lookup, jsRound]

/-- C5 witness: the amended theorem applied to the concrete ages 20, 21,
22 from the test suite. -/
theorem calculateAverageAge_rounds_half_up_witness :
    calculateAverageAge (.arr ([20, 21, 22].map ageObj)) =
      .ok ((jsRound (([20, 21, 22] : List ℚ).sum /
        ([20, 21, 22] : List ℚ).length * 100) : ℚ) / 100) :=
  calculateAverageAge_rounds_half_up.2.1 [20, 21, 22] (by simp)
